import Mathlib

/-!
Verification development for the VecBench micro-benchmark.

Shallow embedding of the sources `src/genvec.hpp`, `src/avxvec.hpp`
(`src/unnamed/part_000`), `src/benchmark.hpp` (declarations and the
benchmark implementation file) and `src/cmul.cpp`.  Machine
single-precision floats are modelled as exact rationals, as the claims
about arithmetic are stated in exact real arithmetic.  The C-style
`for` loops of the source are modelled by the explicit iteration
combinator `iterN`, array writes by pointwise functional update.
-/

/-- Constant `GEN_SIMD_DCOMPLEX_WIDTH` from `src/genvec.hpp`. -/
def GEN_SIMD_DCOMPLEX_WIDTH : Nat := 2

/-- Complex slots of a double vector: `W<double>::c` from `src/genvec.hpp`. -/
def WdoubleC : Nat := GEN_SIMD_DCOMPLEX_WIDTH

/-- Complex slots of a float vector: `W<float>::c = 2*W<double>::c = 4`. -/
def WfloatC : Nat := 2 * WdoubleC

/-- Real slots of a float vector: `W<float>::r = 2*W<float>::c = 8`. -/
def WfloatR : Nat := 2 * WfloatC

/-- Generic short vector `vec<float>` from `src/genvec.hpp`: 8 packed reals
(4 complex numbers), modelled with exact rational entries. -/
abbrev vecf := Fin 8 → ℚ

/-- Read `a.v[i]`.  Every read in the source has `i < 8`; the value at an
out-of-range index is irrelevant (such a read never occurs). -/
def vget (a : vecf) (i : Nat) : ℚ :=
  if h : i < 8 then a ⟨i, h⟩ else 0

/-- Write `a.v[i] = x` as a functional update. -/
def vset (a : vecf) (i : Nat) (x : ℚ) : vecf :=
  fun j => if j.val = i then x else a j

/-- C-style counted loop: `iterN n f x` runs the body `f` at indices
`0, 1, ..., n-1` in increasing order, threading the state. -/
def iterN {α : Type} : Nat → (Nat → α → α) → α → α
  | 0, _, x => x
  | n + 1, f, x => f n (iterN n f x)

/-- Body of the `cmul` macro of `src/genvec.hpp` (lines 122-124): two
sequential writes into `a` at slots `i` and `i+1`. -/
def cmul (a b c : vecf) (i : Nat) : vecf :=
  let a1 := vset a i (vget b i * vget c i - vget b (i + 1) * vget c (i + 1))
  vset a1 (i + 1) (vget b i * vget c (i + 1) + vget b (i + 1) * vget c i)

/-- Two-argument overload of `mulgen` (`src/genvec.hpp` lines 126-136).
The local `vec<T> out` is uninitialised in the source but every slot is
written by the loop, so the zero start vector is irrelevant. -/
def mulgen2 (a b : vecf) : vecf :=
  iterN WfloatC (fun i out => cmul out a b (2 * i)) (fun _ => 0)

/-- Three-argument overload of `mulgen` (`src/genvec.hpp` lines 138-144),
overwriting `a` in place. -/
def mulgen3 (a b c : vecf) : vecf :=
  iterN WfloatC (fun i a0 => cmul a0 b c (2 * i)) a

/-- Body of the `cmac` macro of `src/genvec.hpp` (lines 149-151): two
sequential accumulating writes into `a` at slots `i` and `i+1`. -/
def cmac (a b c : vecf) (i : Nat) : vecf :=
  let a1 := vset a i (vget a i + vget b i * vget c i - vget b (i + 1) * vget c (i + 1))
  vset a1 (i + 1) (vget a1 (i + 1) + vget b i * vget c (i + 1) + vget b (i + 1) * vget c i)

/-- `macgen` (`src/genvec.hpp` lines 153-159), accumulating into `a`. -/
def macgen (a b c : vecf) : vecf :=
  iterN WfloatC (fun i a0 => cmac a0 b c (2 * i)) a

/-- `mi` (`src/genvec.hpp` lines 196-207): builds the constant vector with
every complex slot equal to `(0, -1)`. -/
def mi : vecf :=
  iterN WfloatC (fun i out => vset (vset out (2 * i) 0) (2 * i + 1) (-1)) (fun _ => 0)

/-- Body of the `tmi` macro of `src/genvec.hpp` (lines 210-212). -/
def tmi (a c : vecf) (i : Nat) : vecf :=
  let c1 := vset c i (vget a (i + 1))
  vset c1 (i + 1) (-vget a i)

/-- `timesMinusI1` (`src/genvec.hpp` lines 214-224): multiply by `-i`
explicitly, slot by slot. -/
def timesMinusI1 (a : vecf) : vecf :=
  iterN WfloatC (fun i out => tmi a out (2 * i)) (fun _ => 0)

/-- The constant `mif = mi<float>()` from `src/genvec.hpp` line 229. -/
def mif : vecf := mi

/-- `timesMinusI2` (`src/genvec.hpp` lines 235-238): multiply by `-i` via
`mulgen` and the constant `mif`. -/
def timesMinusI2 (a : vecf) : vecf :=
  mulgen2 a mif

/-- Exact-arithmetic model of `std::complex<float>`. -/
structure Cplx where
  re : ℚ
  im : ℚ
deriving DecidableEq

/-- Addition of `std::complex` values. -/
def Cplx.add (x y : Cplx) : Cplx :=
  ⟨x.re + y.re, x.im + y.im⟩

/-- Multiplication of `std::complex` values, the textbook formula used by
the C++ standard library in exact arithmetic. -/
def Cplx.mul (x y : Cplx) : Cplx :=
  ⟨x.re * y.re - x.im * y.im, x.re * y.im + x.im * y.re⟩

/-- Standard-library short vector `vecc<float>` from `src/genvec.hpp`:
4 packed complex numbers. -/
abbrev vecfc := Fin 4 → Cplx

/-- Read `a.v[i]` of a `vecc` vector. -/
def cget (a : vecfc) (i : Nat) : Cplx :=
  if h : i < 4 then a ⟨i, h⟩ else ⟨0, 0⟩

/-- Write `a.v[i] = x` of a `vecc` vector. -/
def cset (a : vecfc) (i : Nat) (x : Cplx) : vecfc :=
  fun j => if j.val = i then x else a j

/-- Two-argument overload of `mulstd` (`src/genvec.hpp` lines 164-175). -/
def mulstd2 (a b : vecfc) : vecfc :=
  iterN WfloatC (fun i c => cset c i (Cplx.mul (cget a i) (cget b i))) (fun _ => ⟨0, 0⟩)

/-- Three-argument overload of `mulstd` (`src/genvec.hpp` lines 177-184). -/
def mulstd3 (a b c : vecfc) : vecfc :=
  iterN WfloatC (fun i a0 => cset a0 i (Cplx.mul (cget b i) (cget c i))) a

/-- `macstd` (`src/genvec.hpp` lines 186-193). -/
def macstd (a b c : vecfc) : vecfc :=
  iterN WfloatC (fun i a0 => cset a0 i (Cplx.add (cget a0 i) (Cplx.mul (cget b i) (cget c i)))) a

/-- AVX register `__m256`: 8 packed single-precision floats. -/
abbrev m256 := Fin 8 → ℚ

/-- `_mm256_moveldup_ps`: duplicate the even-index elements. -/
def mm256_moveldup_ps (a : m256) : m256 :=
  fun j => vget a (2 * (j.val / 2))

/-- `_mm256_movehdup_ps`: duplicate the odd-index elements. -/
def mm256_movehdup_ps (a : m256) : m256 :=
  fun j => vget a (2 * (j.val / 2) + 1)

/-- `_mm256_mul_ps`: element-wise product. -/
def mm256_mul_ps (a b : m256) : m256 :=
  fun j => a j * b j

/-- `_mm256_add_ps`: element-wise sum. -/
def mm256_add_ps (a b : m256) : m256 :=
  fun j => a j + b j

/-- `_mm256_shuffle_ps` with an 8-bit immediate: within each 128-bit lane,
element `k` picks via selector bits `2k..2k+1` from the first operand when
`k < 2` and from the second operand otherwise. -/
def mm256_shuffle_ps (a b : m256) (imm : Nat) : m256 :=
  fun j =>
    let lane := j.val / 4
    let k := j.val % 4
    let sel := (imm >>> (2 * k)) % 4
    vget (if k < 2 then a else b) (4 * lane + sel)

/-- `_mm256_fmaddsub_ps`: `a*b - c` on even elements, `a*b + c` on odd. -/
def mm256_fmaddsub_ps (a b c : m256) : m256 :=
  fun j => if j.val % 2 = 0 then a j * b j - c j else a j * b j + c j

/-- The `SELECT` macro of `src/avxvec.hpp`. -/
def SELECT (A B C D : Nat) : Nat :=
  (A <<< 6) ||| (B <<< 4) ||| (C <<< 2) ||| D

/-- `muladdf` from `src/avxvec.hpp`. -/
def muladdf (a b : m256) : m256 :=
  mm256_add_ps a b

/-- Two-argument `mulavxf` from `src/avxvec.hpp` (`src/unnamed/part_000`
lines 32-40): the moveldup/movehdup/shuffle/fmaddsub sequence. -/
def mulavxf2 (a b : m256) : m256 :=
  let a_real := mm256_moveldup_ps a
  let a_imag := mm256_movehdup_ps a
  let a_imag2 := mm256_mul_ps a_imag (mm256_shuffle_ps b b (SELECT 2 3 0 1))
  mm256_fmaddsub_ps a_real b a_imag2

/-- Three-argument `mulavxf` overload (`src/unnamed/part_000` lines 42-45):
`a = mulavxf(b, c)`; the old value of `a` is discarded. -/
def mulavxf3 (a b c : m256) : m256 :=
  mulavxf2 b c

/-- `macavxf` (`src/unnamed/part_000` lines 47-50): `a = a + b*c`. -/
def macavxf (a b c : m256) : m256 :=
  muladdf a (mulavxf2 b c)

/-- Input with every complex slot equal to `(1, 0)`. -/
def oneZero : vecf :=
  fun j => if j.val % 2 = 0 then 1 else 0

/-- Input with every complex slot equal to `(0, 1)`. -/
def zeroOne : vecf :=
  fun j => if j.val % 2 = 0 then 0 else 1

/-- Closed form of the element-wise complex product of two packed vectors:
slot pair `(2i, 2i+1)` holds the complex product of the corresponding
slots of `b` and `c`. -/
def cmulv (b c : vecf) : vecf :=
  fun j =>
    if j.val % 2 = 0 then b j * c j - vget b (j.val + 1) * vget c (j.val + 1)
    else vget b (j.val - 1) * c j + b j * vget c (j.val - 1)

/-- Packing correspondence between the generic representation (8 packed
reals) and the standard-library representation (4 complex numbers):
complex slot `i` is the pair of reals at slots `2i` and `2i+1`. -/
def toPairs (a : vecf) : vecfc :=
  fun i => ⟨vget a (2 * i.val), vget a (2 * i.val + 1)⟩

/-- Benchmark parameter `nElem` from `src/benchmark.hpp` line 22. -/
def nElem : Nat := 10000

/-- Benchmark parameter `nIt` from `src/benchmark.hpp` line 22. -/
def nIt : Nat := 5000

/-- Benchmark parameter `nRow` from `src/benchmark.hpp` line 22. -/
def nRow : Nat := 3

/-- Benchmark parameter `nCoef = nRow*nRow` from `src/benchmark.hpp` line 22. -/
def nCoef : Nat := nRow * nRow

/-- Write slot `i` of a `Nat`-indexed array as a functional update. -/
def aset {α : Type} (f : Nat → α) (i : Nat) (x : α) : Nat → α :=
  fun j => if j = i then x else f j

/-- The `MATMUL` macro of the benchmark implementation (lines 167-178 of
`src/benchmark.hpp`): a `mul` pass over `r, s` using column 0 of `b` and
row 0 of `c`, then a `mac` pass over `r`, `t = 1..nRow-1`, `s`.  The
substituted `mul` and `mac` take the overwritten/accumulated entry first
and return its new value. -/
def MATMUL {α : Type} (mulF macF : α → α → α → α) (a b c : Nat → α) (os : Nat) :
    Nat → α :=
  let a1 := iterN nRow (fun r a0 =>
    iterN nRow (fun s a0 =>
      aset a0 (os + r * nRow + s)
        (mulF (a0 (os + r * nRow + s)) (b (os + r * nRow)) (c (os + s)))) a0) a
  iterN nRow (fun r a0 =>
    iterN (nRow - 1) (fun t0 a0 =>
      iterN nRow (fun s a0 =>
        aset a0 (os + r * nRow + s)
          (macF (a0 (os + r * nRow + s)) (b (os + r * nRow + (t0 + 1)))
            (c (os + (t0 + 1) * nRow + s)))) a0) a0) a1

/-- Global state of the benchmark program: the static buffers declared at
lines 115-124 of the benchmark implementation in `src/benchmark.hpp`. -/
structure BenchState where
  a : Nat → vecf
  b : Nat → vecf
  c : Nat → vecf
  ac : Nat → vecfc
  bc : Nat → vecfc
  cc : Nat → vecfc
  aavx : Nat → m256
  bavx : Nat → m256
  cavx : Nat → m256

/-- The double loop of the `BENCHMARK` macro (lines 127-146 of the
benchmark implementation): `nIt` outer iterations, each running the
kernel expression at every element index `i < nElem`. -/
def benchRun {σ : Type} (step : Nat → σ → σ) (s : σ) : σ :=
  iterN nIt (fun _ s0 => iterN nElem step s0) s

/-- `benchRun` at the benchmark program state. -/
def benchLoop (step : Nat → BenchState → BenchState) (s : BenchState) : BenchState :=
  benchRun step s

/-- Kernel expression of `bench_mulgen2`: `a[i] = mulgen(b[i], c[i])`. -/
def stepMulgen2 (i : Nat) (s : BenchState) : BenchState :=
  { s with a := aset s.a i (mulgen2 (s.b i) (s.c i)) }

/-- Kernel expression of `bench_mulgen3`: `mulgen(a[i], b[i], c[i])`. -/
def stepMulgen3 (i : Nat) (s : BenchState) : BenchState :=
  { s with a := aset s.a i (mulgen3 (s.a i) (s.b i) (s.c i)) }

/-- Kernel expression of `bench_macgen`: `macgen(a[i], b[i], c[i])`. -/
def stepMacgen (i : Nat) (s : BenchState) : BenchState :=
  { s with a := aset s.a i (macgen (s.a i) (s.b i) (s.c i)) }

/-- Kernel expression of `bench_matmulgen`: `MATMUL` on the generic
buffers at offset `os = i*nCoef`. -/
def stepMatmulgen (i : Nat) (s : BenchState) : BenchState :=
  { s with a := MATMUL mulgen3 macgen s.a s.b s.c (i * nCoef) }

/-- Kernel expression of `bench_mulstd2`: `ac[i] = mulstd(bc[i], cc[i])`. -/
def stepMulstd2 (i : Nat) (s : BenchState) : BenchState :=
  { s with ac := aset s.ac i (mulstd2 (s.bc i) (s.cc i)) }

/-- Kernel expression of `bench_mulstd3`: `mulstd(ac[i], bc[i], cc[i])`. -/
def stepMulstd3 (i : Nat) (s : BenchState) : BenchState :=
  { s with ac := aset s.ac i (mulstd3 (s.ac i) (s.bc i) (s.cc i)) }

/-- Kernel expression of `bench_macstd`: `macstd(ac[i], bc[i], cc[i])`. -/
def stepMacstd (i : Nat) (s : BenchState) : BenchState :=
  { s with ac := aset s.ac i (macstd (s.ac i) (s.bc i) (s.cc i)) }

/-- Kernel expression of `bench_matmulstd`. -/
def stepMatmulstd (i : Nat) (s : BenchState) : BenchState :=
  { s with ac := MATMUL mulstd3 macstd s.ac s.bc s.cc (i * nCoef) }

/-- Kernel expression of `bench_mulavx2` (line 221 of the benchmark
implementation): `aavx[i] = mulavxf(bavx[i], cavx[i])`, the two-argument
call. -/
def stepMulavx2 (i : Nat) (s : BenchState) : BenchState :=
  { s with aavx := aset s.aavx i (mulavxf2 (s.bavx i) (s.cavx i)) }

/-- Kernel expression of `bench_mulavx3` (line 225 of the benchmark
implementation).  The source text is `aavx[i] = mulavxf(bavx[i], cavx[i])`,
the same two-argument call as `bench_mulavx2`; the three-argument overload
does not appear. -/
def stepMulavx3 (i : Nat) (s : BenchState) : BenchState :=
  { s with aavx := aset s.aavx i (mulavxf2 (s.bavx i) (s.cavx i)) }

/-- Kernel expression of `bench_macavx`: `macavxf(aavx[i], bavx[i], cavx[i])`. -/
def stepMacavx (i : Nat) (s : BenchState) : BenchState :=
  { s with aavx := aset s.aavx i (macavxf (s.aavx i) (s.bavx i) (s.cavx i)) }

/-- Kernel expression of `bench_matmulavx`. -/
def stepMatmulavx (i : Nat) (s : BenchState) : BenchState :=
  { s with aavx := MATMUL mulavxf3 macavxf s.aavx s.bavx s.cavx (i * nCoef) }

/-- Per-element flop count `6.*W<float>::c` passed to the `mul` benchmarks. -/
def flopsMul : ℚ := 6 * (WfloatC : ℚ)

/-- Per-element flop count `8.*W<float>::c` passed to the `mac` benchmarks. -/
def flopsMac : ℚ := 8 * (WfloatC : ℚ)

/-- Per-element flop count passed to the `matmul` benchmarks. -/
def flopsMatmul : ℚ :=
  (nRow : ℚ) * (nRow : ℚ) * 6 * (WfloatC : ℚ)
    + (nRow : ℚ) * (nRow : ℚ) * ((nRow : ℚ) - 1) * 8 * (WfloatC : ℚ)

/-- One line of standard output.  `info` stands for the fixed info header
printed by `bench_info` (its text depends only on compile-time constants);
`title` is the `# <title>` line of a benchmark; `result` is the
`duration= <elapsed> s -- Gflop/s= <throughput>` line carrying the elapsed
seconds and the printed throughput. -/
inductive Line where
  | info : Line
  | title : String → Line
  | result : ℚ → ℚ → Line
deriving DecidableEq

/-- Throughput printed by the `BENCHMARK` macro (line 145 of the
benchmark implementation): `(flops)*nIt*nElem/1.0e9/elapsed`. -/
def benchGflops (flops elapsed : ℚ) : ℚ :=
  flops * (nIt : ℚ) * (nElem : ℚ) / 1000000000 / elapsed

/-- Output of one benchmark function: its title line, then the result
line with the elapsed time and the computed throughput. -/
def benchOutput (title : String) (flops elapsed : ℚ) : List Line :=
  [Line.title title, Line.result elapsed (benchGflops flops elapsed)]

/-- Title of `bench_mulgen2`. -/
def t_mulgen2 : String := "generic a[i] = b[i]*c[i] (2 args)"

/-- Title of `bench_mulgen3`. -/
def t_mulgen3 : String := "generic a[i] = b[i]*c[i] (3 args)"

/-- Title of `bench_macgen`. -/
def t_macgen : String := "generic a[i] += b[i]*c[i]"

/-- Title of `bench_matmulgen`. -/
def t_matmulgen : String := "generic A[i] = B[i]*C[i]"

/-- Title of `bench_mulstd2`. -/
def t_mulstd2 : String := "std a[i] = b[i]*c[i] (2 args)"

/-- Title of `bench_mulstd3`. -/
def t_mulstd3 : String := "std a[i] = b[i]*c[i] (3 args)"

/-- Title of `bench_macstd`. -/
def t_macstd : String := "std a[i] += b[i]*c[i]"

/-- Title of `bench_matmulstd`. -/
def t_matmulstd : String := "std A[i] = B[i]*C[i]"

/-- Title of `bench_mulavx2`. -/
def t_mulavx2 : String := "AVX a[i] = b[i]*c[i] (2 args)"

/-- Title of `bench_mulavx3`. -/
def t_mulavx3 : String := "AVX a[i] = b[i]*c[i] (3 args)"

/-- Title of `bench_macavx`. -/
def t_macavx : String := "AVX a[i] += b[i]*c[i]"

/-- Title of `bench_matmulavx`. -/
def t_matmulavx : String := "AVX A[i] = B[i]*C[i]"

/-- State transformation of `main` (`src/cmul.cpp` lines 6-23): the twelve
benchmarks run in program order, each transforming the static buffers in
place.  The buffers hold their static initial values when `main` starts;
no code repopulates them in between. -/
def mainState (s : BenchState) : BenchState :=
  let s1 := benchLoop stepMulgen2 s
  let s2 := benchLoop stepMulgen3 s1
  let s3 := benchLoop stepMacgen s2
  let s4 := benchLoop stepMatmulgen s3
  let s5 := benchLoop stepMulstd2 s4
  let s6 := benchLoop stepMulstd3 s5
  let s7 := benchLoop stepMacstd s6
  let s8 := benchLoop stepMatmulstd s7
  let s9 := benchLoop stepMulavx2 s8
  let s10 := benchLoop stepMulavx3 s9
  let s11 := benchLoop stepMacavx s10
  let s12 := benchLoop stepMatmulavx s11
  s12

/-- Standard output of `main`, parameterised by the measured elapsed time
of each benchmark (index 0 to 11 in program order): the info header, then
the output of the twelve benchmarks in the order of `src/cmul.cpp`. -/
def mainOutput (e : Nat → ℚ) : List Line :=
  [Line.info]
    ++ benchOutput t_mulgen2 flopsMul (e 0)
    ++ benchOutput t_mulgen3 flopsMul (e 1)
    ++ benchOutput t_macgen flopsMac (e 2)
    ++ benchOutput t_matmulgen flopsMatmul (e 3)
    ++ benchOutput t_mulstd2 flopsMul (e 4)
    ++ benchOutput t_mulstd3 flopsMul (e 5)
    ++ benchOutput t_macstd flopsMac (e 6)
    ++ benchOutput t_matmulstd flopsMatmul (e 7)
    ++ benchOutput t_mulavx2 flopsMul (e 8)
    ++ benchOutput t_mulavx3 flopsMul (e 9)
    ++ benchOutput t_macavx flopsMac (e 10)
    ++ benchOutput t_matmulavx flopsMatmul (e 11)

/-- `EXIT_SUCCESS` returned by `main`. -/
def EXIT_SUCCESS : Nat := 0

/-- Complete behaviour of `main`: it runs straight-line code with no error
branch, produces the output and final state, and returns `EXIT_SUCCESS`.
The `Except` wrapper records that no execution path reports failure. -/
def mainRun (e : Nat → ℚ) (s : BenchState) : Except String (Nat × List Line × BenchState) :=
  Except.ok (EXIT_SUCCESS, mainOutput e, mainState s)

/-- The six input buffers of the program state. -/
def inputsOf (s : BenchState) :
    (Nat → vecf) × (Nat → vecf) × (Nat → vecfc) × (Nat → vecfc)
      × (Nat → m256) × (Nat → m256) :=
  (s.b, s.c, s.bc, s.cc, s.bavx, s.cavx)

/-- Unfolding of the generic loop at the float complex width. -/
theorem iterN_wc {α : Type} (f : Nat → α → α) (x : α) :
    iterN WfloatC f x = f 3 (f 2 (f 1 (f 0 x))) := rfl

/-- Value of the literal 0 of `Fin 8`. -/
@[simp] theorem fin8_val0 : ((0 : Fin 8)).val = 0 := rfl

/-- Value of the literal 1 of `Fin 8`. -/
@[simp] theorem fin8_val1 : ((1 : Fin 8)).val = 1 := rfl

/-- Value of the literal 2 of `Fin 8`. -/
@[simp] theorem fin8_val2 : ((2 : Fin 8)).val = 2 := rfl

/-- Value of the literal 3 of `Fin 8`. -/
@[simp] theorem fin8_val3 : ((3 : Fin 8)).val = 3 := rfl

/-- Value of the literal 4 of `Fin 8`. -/
@[simp] theorem fin8_val4 : ((4 : Fin 8)).val = 4 := rfl

/-- Value of the literal 5 of `Fin 8`. -/
@[simp] theorem fin8_val5 : ((5 : Fin 8)).val = 5 := rfl

/-- Value of the literal 6 of `Fin 8`. -/
@[simp] theorem fin8_val6 : ((6 : Fin 8)).val = 6 := rfl

/-- Value of the literal 7 of `Fin 8`. -/
@[simp] theorem fin8_val7 : ((7 : Fin 8)).val = 7 := rfl

/-- Value of the literal 0 of `Fin 4`. -/
@[simp] theorem fin4_val0 : ((0 : Fin 4)).val = 0 := rfl

/-- Value of the literal 1 of `Fin 4`. -/
@[simp] theorem fin4_val1 : ((1 : Fin 4)).val = 1 := rfl

/-- Value of the literal 2 of `Fin 4`. -/
@[simp] theorem fin4_val2 : ((2 : Fin 4)).val = 2 := rfl

/-- Value of the literal 3 of `Fin 4`. -/
@[simp] theorem fin4_val3 : ((3 : Fin 4)).val = 3 := rfl

/-- The three-argument `mulgen` computes the element-wise complex product,
independently of the overwritten output argument. -/
theorem mulgen3_closed (a b c : vecf) : mulgen3 a b c = cmulv b c := by
  funext j
  obtain ⟨k, hk⟩ := j
  interval_cases k <;> (simp [mulgen3, cmul, iterN_wc, vget, vset, cmulv]; try ring)

/-- The two-argument `mulgen` computes the element-wise complex product. -/
theorem mulgen2_closed (a b : vecf) : mulgen2 a b = cmulv a b := by
  funext j
  obtain ⟨k, hk⟩ := j
  interval_cases k <;> (simp [mulgen2, cmul, iterN_wc, vget, vset, cmulv]; try ring)

/-- Pointwise closed form of `macgen`: accumulate the complex product. -/
theorem macgen_apply (a b c : vecf) (j : Fin 8) :
    macgen a b c j = a j + cmulv b c j := by
  obtain ⟨k, hk⟩ := j
  interval_cases k <;>
    (simp [macgen, cmac, iterN_wc, vget, vset, cmulv]; try ring)

/-- C1: the generic complex multiply `mulgen` (both the three-argument
in-place form and the two-argument value form) sets, for each complex
slot `i < W<float>::c`, slot `2i` to `b[2i]*c[2i] - b[2i+1]*c[2i+1]` and
slot `2i+1` to `b[2i]*c[2i+1] + b[2i+1]*c[2i]`, i.e. the element-wise
complex product; and on inputs whose every complex slot is `(1,0)` and
`(0,1)` respectively, every complex slot of the result is `(0,1)`. -/
theorem C1_mulgen_complex_product (a b c : vecf) (i : Nat) (h : i < WfloatC) :
    vget (mulgen3 a b c) (2 * i)
        = vget b (2 * i) * vget c (2 * i) - vget b (2 * i + 1) * vget c (2 * i + 1)
    ∧ vget (mulgen3 a b c) (2 * i + 1)
        = vget b (2 * i) * vget c (2 * i + 1) + vget b (2 * i + 1) * vget c (2 * i)
    ∧ vget (mulgen2 b c) (2 * i)
        = vget b (2 * i) * vget c (2 * i) - vget b (2 * i + 1) * vget c (2 * i + 1)
    ∧ vget (mulgen2 b c) (2 * i + 1)
        = vget b (2 * i) * vget c (2 * i + 1) + vget b (2 * i + 1) * vget c (2 * i)
    ∧ mulgen2 oneZero zeroOne = zeroOne
    ∧ mulgen3 a oneZero zeroOne = zeroOne := by
  have h4 : i < 4 := h
  refine ⟨?_, ?_, ?_, ?_, ?_, ?_⟩
  · interval_cases i <;> rfl
  · interval_cases i <;> rfl
  · interval_cases i <;> rfl
  · interval_cases i <;> rfl
  · funext j; obtain ⟨k, hk⟩ := j
    interval_cases k <;> simp [mulgen2, cmul, iterN_wc, vget, vset, oneZero, zeroOne]
  · funext j; obtain ⟨k, hk⟩ := j
    interval_cases k <;> simp [mulgen3, cmul, iterN_wc, vget, vset, oneZero, zeroOne]

/-- Witness for C1 at slot `i = 1` and the all-zero vectors. -/
theorem C1_witness :
    (1 : Nat) < WfloatC
    ∧ (vget (mulgen3 (fun _ => 0) (fun _ => 0) (fun _ => 0)) (2 * 1)
          = vget (fun _ => (0 : ℚ)) (2 * 1) * vget (fun _ => 0) (2 * 1)
            - vget (fun _ => (0 : ℚ)) (2 * 1 + 1) * vget (fun _ => 0) (2 * 1 + 1)
        ∧ vget (mulgen3 (fun _ => 0) (fun _ => 0) (fun _ => 0)) (2 * 1 + 1)
          = vget (fun _ => (0 : ℚ)) (2 * 1) * vget (fun _ => 0) (2 * 1 + 1)
            + vget (fun _ => (0 : ℚ)) (2 * 1 + 1) * vget (fun _ => 0) (2 * 1)
        ∧ vget (mulgen2 (fun _ => 0) (fun _ => 0)) (2 * 1)
          = vget (fun _ => (0 : ℚ)) (2 * 1) * vget (fun _ => 0) (2 * 1)
            - vget (fun _ => (0 : ℚ)) (2 * 1 + 1) * vget (fun _ => 0) (2 * 1 + 1)
        ∧ vget (mulgen2 (fun _ => 0) (fun _ => 0)) (2 * 1 + 1)
          = vget (fun _ => (0 : ℚ)) (2 * 1) * vget (fun _ => 0) (2 * 1 + 1)
            + vget (fun _ => (0 : ℚ)) (2 * 1 + 1) * vget (fun _ => 0) (2 * 1)
        ∧ mulgen2 oneZero zeroOne = zeroOne
        ∧ mulgen3 (fun _ => 0) oneZero zeroOne = zeroOne) :=
  ⟨by decide, C1_mulgen_complex_product (fun _ => 0) (fun _ => 0) (fun _ => 0) 1 (by decide)⟩

/-- C10: the two multiply-by-minus-i implementations agree in exact real
arithmetic: `timesMinusI1`, which sets each complex slot to
`(a_im, -a_re)`, equals `timesMinusI2`, which multiplies by the constant
vector `mif` (every complex slot `(0, -1)`) using `mulgen`. -/
theorem C10_timesMinusI_agree (a : vecf) :
    timesMinusI1 a = timesMinusI2 a
    ∧ mif = fun j => if j.val % 2 = 0 then 0 else -1 := by
  constructor
  · funext j
    obtain ⟨k, hk⟩ := j
    interval_cases k <;>
      (simp [timesMinusI1, timesMinusI2, tmi, mulgen2, cmul, mif, mi, iterN_wc, vget, vset]
       <;> try ring)
  · funext j
    obtain ⟨k, hk⟩ := j
    interval_cases k <;> simp [mif, mi, iterN_wc, vget, vset]

/-- C4: the three implementation strategies of the element-wise complex
multiply agree in exact real arithmetic: `mulgen` (both overloads),
`mulavxf` (both overloads, via the moveldup/movehdup/shuffle/fmaddsub
sequence) and `mulstd` (both overloads, under the packing correspondence
`toPairs`) produce the same complex results on inputs holding the same
complex values. -/
theorem C4_three_strategies_agree (x b c : vecf) :
    mulgen2 b c = mulavxf2 b c
    ∧ mulgen3 x b c = mulavxf3 x b c
    ∧ toPairs (mulgen2 b c) = mulstd2 (toPairs b) (toPairs c)
    ∧ toPairs (mulgen3 x b c) = mulstd3 (toPairs x) (toPairs b) (toPairs c) := by
  refine ⟨?_, ?_, ?_, ?_⟩
  · funext j
    obtain ⟨k, hk⟩ := j
    interval_cases k <;>
      (simp [mulgen2, cmul, iterN_wc, vget, vset, mulavxf2, mm256_moveldup_ps,
        mm256_movehdup_ps, mm256_mul_ps, mm256_shuffle_ps, mm256_fmaddsub_ps, SELECT]
       <;> try ring)
  · funext j
    obtain ⟨k, hk⟩ := j
    interval_cases k <;>
      (simp [mulgen3, cmul, iterN_wc, vget, vset, mulavxf3, mulavxf2, mm256_moveldup_ps,
        mm256_movehdup_ps, mm256_mul_ps, mm256_shuffle_ps, mm256_fmaddsub_ps, SELECT]
       <;> try ring)
  · funext j
    obtain ⟨k, hk⟩ := j
    interval_cases k <;>
      (simp [toPairs, mulgen2, cmul, iterN_wc, vget, vset, mulstd2, cset, cget,
        Cplx.mul, iterN_wc]
       <;> try ring)
  · funext j
    obtain ⟨k, hk⟩ := j
    interval_cases k <;>
      (simp [toPairs, mulgen3, cmul, iterN_wc, vget, vset, mulstd3, cset, cget,
        Cplx.mul, iterN_wc]
       <;> try ring)

/-- C3: each of the three multiply-accumulate kernels performs `a += b*c`
per complex slot `i`: the new value of slot `i` equals the old value plus
the complex product of the corresponding slots of `b` and `c`, for
`macgen` (generic), `macstd` (standard library) and `macavxf` (AVX). -/
theorem C3_mac_kernels_accumulate (a b c : vecf) (ac bc cc : vecfc) (i : Nat)
    (h : i < WfloatC) :
    vget (macgen a b c) (2 * i)
        = vget a (2 * i) + (vget b (2 * i) * vget c (2 * i)
            - vget b (2 * i + 1) * vget c (2 * i + 1))
    ∧ vget (macgen a b c) (2 * i + 1)
        = vget a (2 * i + 1) + (vget b (2 * i) * vget c (2 * i + 1)
            + vget b (2 * i + 1) * vget c (2 * i))
    ∧ (cget (macstd ac bc cc) i).re
        = (cget ac i).re + ((cget bc i).re * (cget cc i).re
            - (cget bc i).im * (cget cc i).im)
    ∧ (cget (macstd ac bc cc) i).im
        = (cget ac i).im + ((cget bc i).re * (cget cc i).im
            + (cget bc i).im * (cget cc i).re)
    ∧ vget (macavxf a b c) (2 * i)
        = vget a (2 * i) + (vget b (2 * i) * vget c (2 * i)
            - vget b (2 * i + 1) * vget c (2 * i + 1))
    ∧ vget (macavxf a b c) (2 * i + 1)
        = vget a (2 * i + 1) + (vget b (2 * i) * vget c (2 * i + 1)
            + vget b (2 * i + 1) * vget c (2 * i)) := by
  have h4 : i < 4 := h
  refine ⟨?_, ?_, ?_, ?_, ?_, ?_⟩ <;>
    (interval_cases i <;>
      (simp [macgen, cmac, iterN_wc, vget, vset, macstd, cset, cget, Cplx.add, Cplx.mul,
        macavxf, muladdf, mm256_add_ps, mulavxf2, mm256_moveldup_ps, mm256_movehdup_ps,
        mm256_mul_ps, mm256_shuffle_ps, mm256_fmaddsub_ps, SELECT]
       <;> try ring))

/-- Witness for C3 at slot `i = 0` and all-zero inputs. -/
theorem C3_witness :
    (0 : Nat) < WfloatC
    ∧ (vget (macgen (fun _ => 0) (fun _ => 0) (fun _ => 0)) (2 * 0)
          = vget (fun _ => (0 : ℚ)) (2 * 0) + (vget (fun _ => (0 : ℚ)) (2 * 0) * vget (fun _ => (0 : ℚ)) (2 * 0)
              - vget (fun _ => (0 : ℚ)) (2 * 0 + 1) * vget (fun _ => (0 : ℚ)) (2 * 0 + 1))
        ∧ vget (macgen (fun _ => 0) (fun _ => 0) (fun _ => 0)) (2 * 0 + 1)
          = vget (fun _ => (0 : ℚ)) (2 * 0 + 1) + (vget (fun _ => (0 : ℚ)) (2 * 0) * vget (fun _ => (0 : ℚ)) (2 * 0 + 1)
              + vget (fun _ => (0 : ℚ)) (2 * 0 + 1) * vget (fun _ => (0 : ℚ)) (2 * 0))
        ∧ (cget (macstd (fun _ => ⟨0, 0⟩) (fun _ => ⟨0, 0⟩) (fun _ => ⟨0, 0⟩)) 0).re
          = (cget (fun _ => (⟨0, 0⟩ : Cplx)) 0).re + ((cget (fun _ => (⟨0, 0⟩ : Cplx)) 0).re * (cget (fun _ => (⟨0, 0⟩ : Cplx)) 0).re
              - (cget (fun _ => (⟨0, 0⟩ : Cplx)) 0).im * (cget (fun _ => (⟨0, 0⟩ : Cplx)) 0).im)
        ∧ (cget (macstd (fun _ => ⟨0, 0⟩) (fun _ => ⟨0, 0⟩) (fun _ => ⟨0, 0⟩)) 0).im
          = (cget (fun _ => (⟨0, 0⟩ : Cplx)) 0).im + ((cget (fun _ => (⟨0, 0⟩ : Cplx)) 0).re * (cget (fun _ => (⟨0, 0⟩ : Cplx)) 0).im
              + (cget (fun _ => (⟨0, 0⟩ : Cplx)) 0).im * (cget (fun _ => (⟨0, 0⟩ : Cplx)) 0).re)
        ∧ vget (macavxf (fun _ => 0) (fun _ => 0) (fun _ => 0)) (2 * 0)
          = vget (fun _ => (0 : ℚ)) (2 * 0) + (vget (fun _ => (0 : ℚ)) (2 * 0) * vget (fun _ => (0 : ℚ)) (2 * 0)
              - vget (fun _ => (0 : ℚ)) (2 * 0 + 1) * vget (fun _ => (0 : ℚ)) (2 * 0 + 1))
        ∧ vget (macavxf (fun _ => 0) (fun _ => 0) (fun _ => 0)) (2 * 0 + 1)
          = vget (fun _ => (0 : ℚ)) (2 * 0 + 1) + (vget (fun _ => (0 : ℚ)) (2 * 0) * vget (fun _ => (0 : ℚ)) (2 * 0 + 1)
              + vget (fun _ => (0 : ℚ)) (2 * 0 + 1) * vget (fun _ => (0 : ℚ)) (2 * 0))) :=
  ⟨by decide,
   C3_mac_kernels_accumulate (fun _ => 0) (fun _ => 0) (fun _ => 0)
     (fun _ => ⟨0, 0⟩) (fun _ => ⟨0, 0⟩) (fun _ => ⟨0, 0⟩) 0 (by decide)⟩

/-- Unfolding of a loop of three iterations. -/
theorem iterN_three {α : Type} (f : Nat → α → α) (x : α) :
    iterN 3 f x = f 2 (f 1 (f 0 x)) := rfl

/-- Unfolding of a loop of two iterations. -/
theorem iterN_two {α : Type} (f : Nat → α → α) (x : α) :
    iterN 2 f x = f 1 (f 0 x) := rfl

/-- Lookup after an update at an offset index. -/
@[simp] theorem aset_apply_add {α : Type} (f : Nat → α) (os k m : Nat) (x : α) :
    aset f (os + k) x (os + m) = if m = k then x else f (os + m) := by
  simp [aset, add_right_inj]

/-- Lookup at the updated index. -/
@[simp] theorem aset_apply_self {α : Type} (f : Nat → α) (i : Nat) (x : α) :
    aset f i x i = x := by
  simp [aset]

/-- Lookup at the base offset after an update at `os + k`. -/
@[simp] theorem aset_apply_add_self {α : Type} (f : Nat → α) (os k : Nat) (x : α) :
    aset f (os + k) x os = if 0 = k then x else f os := by
  simp [aset, self_eq_add_right]
  rcases Nat.eq_zero_or_pos k with h | h
  · simp [h]
  · simp [Nat.ne_of_gt h, Nat.ne_of_lt h]

/-- Lookup at `os + m` after an update at the base offset. -/
@[simp] theorem aset_self_apply_add {α : Type} (f : Nat → α) (os m : Nat) (x : α) :
    aset f os x (os + m) = if m = 0 then x else f (os + m) := by
  simp [aset, add_right_eq_self]

/-- C2: for every offset and array state, the `MATMUL` loop sequence
instantiated with the generic complex multiply and multiply-accumulate
computes the row-major 3x3 complex matrix product: entry `(r, s)` of the
output matrix at offset `os` ends equal to the sum over `t` of the
complex products of entries `(r, t)` of `b` and `(t, s)` of `c`. -/
theorem C2_MATMUL_matrix_product (a b c : Nat → vecf) (os r s : Nat)
    (hr : r < nRow) (hs : s < nRow) :
    MATMUL mulgen3 macgen a b c os (os + r * nRow + s)
      = ∑ t ∈ Finset.range nRow,
          cmulv (b (os + r * nRow + t)) (c (os + t * nRow + s)) := by
  have hr3 : r < 3 := hr
  have hs3 : s < 3 := hs
  clear hr hs
  interval_cases r <;> interval_cases s <;>
    (funext j
     simp only [MATMUL, nRow, Nat.reduceSub, iterN_three, iterN_two, Nat.add_assoc,
       Nat.reduceMul, Nat.reduceAdd, aset_apply_add, aset_apply_self,
       aset_apply_add_self, aset_self_apply_add, Nat.reduceEqDiff, if_false, if_true,
       mulgen3_closed, macgen_apply,
       Finset.sum_apply, Finset.sum_range_succ, Finset.sum_range_zero,
       Pi.zero_apply, zero_add]
     <;> try ring)

/-- Witness for C2 at offset 5, row 1, column 2 and all-zero arrays. -/
theorem C2_witness :
    (1 : Nat) < nRow ∧ (2 : Nat) < nRow
    ∧ MATMUL mulgen3 macgen (fun _ : Nat => fun _ : Fin 8 => (0 : ℚ))
        (fun _ : Nat => fun _ : Fin 8 => (0 : ℚ)) (fun _ : Nat => fun _ : Fin 8 => (0 : ℚ))
        5 (5 + 1 * nRow + 2)
      = ∑ t ∈ Finset.range nRow,
          cmulv ((fun _ : Nat => fun _ : Fin 8 => (0 : ℚ)) (5 + 1 * nRow + t))
            ((fun _ : Nat => fun _ : Fin 8 => (0 : ℚ)) (5 + t * nRow + 2)) :=
  ⟨by decide, by decide,
   C2_MATMUL_matrix_product (fun _ => fun _ => 0) (fun _ => fun _ => 0)
     (fun _ => fun _ => 0) 5 1 2 (by decide) (by decide)⟩

/-- Counting lemma: one inner benchmark loop increments the counter once
per kernel evaluation. -/
theorem iterN_count {σ : Type} (f : Nat → σ → σ) :
    ∀ (n : Nat) (p : σ × Nat),
      (iterN n (fun i q => (f i q.1, q.2 + 1)) p).2 = p.2 + n := by
  intro n
  induction n with
  | zero => intro p; rfl
  | succ m ih =>
      intro p
      simp [iterN, ih]
      omega

/-- Counting lemma: nested loops of `n` and `M` iterations evaluate the
kernel `n * M` times. -/
theorem iterN_iterN_count {σ : Type} (f : Nat → σ → σ) (M : Nat) :
    ∀ (n : Nat) (p : σ × Nat),
      (iterN n (fun _ q => iterN M (fun i q2 => (f i q2.1, q2.2 + 1)) q) p).2
        = p.2 + n * M := by
  intro n
  induction n with
  | zero => intro p; show p.2 = p.2 + 0 * M; simp
  | succ m ih =>
      intro p
      show (iterN M (fun i q2 => (f i q2.1, q2.2 + 1))
          (iterN m (fun _ q => iterN M (fun i q2 => (f i q2.1, q2.2 + 1)) q) p)).2
        = p.2 + (m + 1) * M
      rw [iterN_count f M, ih p]
      ring

/-- C5: every benchmark function generated by the `BENCHMARK` macro
evaluates its kernel expression exactly `nIt * nElem = 5000 * 10000`
times (an outer loop of `nIt` iterations over an inner loop of `nElem`
elements), and prints the elapsed time followed by the throughput
`(flops) * nIt * nElem / 1.0e9 / elapsed`. -/
theorem C5_benchmark_count_and_throughput {σ : Type} (step : Nat → σ → σ) (s : σ)
    (title : String) (flops elapsed : ℚ) :
    (benchRun (fun i q => (step i q.1, q.2 + 1)) (s, 0)).2 = nIt * nElem
    ∧ nIt * nElem = 5000 * 10000
    ∧ benchOutput title flops elapsed
        = [Line.title title,
           Line.result elapsed (flops * (nIt : ℚ) * (nElem : ℚ) / 1000000000 / elapsed)] := by
  refine ⟨?_, rfl, rfl⟩
  show (iterN nIt (fun _ q => iterN nElem (fun i q2 => (step i q2.1, q2.2 + 1)) q) (s, 0)).2
    = nIt * nElem
  rw [iterN_iterN_count step nElem nIt (s, 0)]
  simp

/-- Projections preserved by a loop whose body preserves them. -/
theorem iterN_fix {α β : Type} (g : α → β) (f : Nat → α → α)
    (hf : ∀ i x, g (f i x) = g x) :
    ∀ (n : Nat) (x : α), g (iterN n f x) = g x := by
  intro n
  induction n with
  | zero => intro x; rfl
  | succ m ih =>
      intro x
      show g (f m (iterN m f x)) = g x
      rw [hf, ih]

/-- A benchmark loop preserves any projection its kernel step preserves. -/
theorem benchLoop_fix {β : Type} (g : BenchState → β)
    (step : Nat → BenchState → BenchState)
    (hstep : ∀ i x, g (step i x) = g x) (s : BenchState) :
    g (benchLoop step s) = g s := by
  refine iterN_fix g _ ?_ nIt s
  intro i x
  exact iterN_fix g step hstep nElem x

/-- The whole program run never modifies the six input buffers. -/
theorem mainState_inputs (s : BenchState) : inputsOf (mainState s) = inputsOf s := by
  simp only [mainState]
  rw [benchLoop_fix inputsOf stepMatmulavx (fun _ _ => rfl),
      benchLoop_fix inputsOf stepMacavx (fun _ _ => rfl),
      benchLoop_fix inputsOf stepMulavx3 (fun _ _ => rfl),
      benchLoop_fix inputsOf stepMulavx2 (fun _ _ => rfl),
      benchLoop_fix inputsOf stepMatmulstd (fun _ _ => rfl),
      benchLoop_fix inputsOf stepMacstd (fun _ _ => rfl),
      benchLoop_fix inputsOf stepMulstd3 (fun _ _ => rfl),
      benchLoop_fix inputsOf stepMulstd2 (fun _ _ => rfl),
      benchLoop_fix inputsOf stepMatmulgen (fun _ _ => rfl),
      benchLoop_fix inputsOf stepMacgen (fun _ _ => rfl),
      benchLoop_fix inputsOf stepMulgen3 (fun _ _ => rfl),
      benchLoop_fix inputsOf stepMulgen2 (fun _ _ => rfl)]

/-- C6: the numeric buffers are populated once before the timing loops
run (the static initial state `s` that `main` starts from); afterwards
every timing-loop iteration only reads them and writes kernel results
back in place, so across the whole program run the six input buffers
`b, c, bc, cc, bavx, cavx` are never modified. -/
theorem C6_buffers_populated_once_in_place (s : BenchState) :
    (mainState s).b = s.b ∧ (mainState s).c = s.c ∧ (mainState s).bc = s.bc
    ∧ (mainState s).cc = s.cc ∧ (mainState s).bavx = s.bavx
    ∧ (mainState s).cavx = s.cavx := by
  have h := mainState_inputs s
  simp only [inputsOf, Prod.mk.injEq] at h
  exact h

/-- C7: the program prints the info header before any benchmark output,
then runs the twelve benchmarks in the fixed order generic (mul 2-arg,
mul 3-arg, mac, matmul), std (same order), AVX (same order), each
printing its title line then its timing/throughput line, and nothing
else. -/
theorem C7_output_order (e : Nat → ℚ) :
    mainOutput e
      = [Line.info,
         Line.title t_mulgen2, Line.result (e 0) (benchGflops flopsMul (e 0)),
         Line.title t_mulgen3, Line.result (e 1) (benchGflops flopsMul (e 1)),
         Line.title t_macgen, Line.result (e 2) (benchGflops flopsMac (e 2)),
         Line.title t_matmulgen, Line.result (e 3) (benchGflops flopsMatmul (e 3)),
         Line.title t_mulstd2, Line.result (e 4) (benchGflops flopsMul (e 4)),
         Line.title t_mulstd3, Line.result (e 5) (benchGflops flopsMul (e 5)),
         Line.title t_macstd, Line.result (e 6) (benchGflops flopsMac (e 6)),
         Line.title t_matmulstd, Line.result (e 7) (benchGflops flopsMatmul (e 7)),
         Line.title t_mulavx2, Line.result (e 8) (benchGflops flopsMul (e 8)),
         Line.title t_mulavx3, Line.result (e 9) (benchGflops flopsMul (e 9)),
         Line.title t_macavx, Line.result (e 10) (benchGflops flopsMac (e 10)),
         Line.title t_matmulavx, Line.result (e 11) (benchGflops flopsMatmul (e 11))] :=
  rfl

/-- C8: the program has no error conditions: `main` is straight-line
code whose run always succeeds with `EXIT_SUCCESS = 0` and never
produces an error. -/
theorem C8_always_succeeds (e : Nat → ℚ) (s : BenchState) :
    mainRun e s = Except.ok (EXIT_SUCCESS, mainOutput e, mainState s)
    ∧ EXIT_SUCCESS = 0
    ∧ ∀ msg : String, mainRun e s ≠ Except.error msg := by
  refine ⟨rfl, rfl, ?_⟩
  intro msg h
  exact Except.noConfusion h

/-- C9: the kernel expression of `bench_mulavx3` is exactly that of
`bench_mulavx2` — the two-argument call `aavx[i] = mulavxf(bavx[i],
cavx[i])` — and the three-argument `mulavxf` overload (which it never
invokes) merely delegates to the two-argument one. -/
theorem C9_mulavx3_same_as_mulavx2 :
    (∀ (i : Nat) (s : BenchState), stepMulavx3 i s = stepMulavx2 i s)
    ∧ (∀ x b c : m256, mulavxf3 x b c = mulavxf2 b c) :=
  ⟨fun _ _ => rfl, fun _ _ _ => rfl⟩
